import Mathlib

/-!
Verification of the history query engine of the flatpak command-line client,
shallowly embedded from `src/app/flatpak-builtins-history.c`.

Modelling conventions:
* A journal string field read (`get_field`) has three outcomes in the C code:
  a value, `NULL` with no error (the field is absent, `-ENOENT`), or `NULL`
  with a `GError` set (a genuine backend read failure).  These are the three
  constructors of `FieldVal`.
* `GDateTime` values are modelled as `Int` seconds on a proleptic Gregorian
  civil calendar with a fixed-offset local time zone (no DST); GLib's
  microsecond `GTimeSpan` differences are `(end - begin) * 1000000`.
  `g_date_time_difference` is `NULL`-tolerant through `g_return_val_if_fail`,
  which makes it evaluate to `0` when either argument is `NULL`; the model
  keeps that behaviour (`Option Int` arguments, `none` giving `0`).
* C strings handed to parsers are modelled as `List Char`; `g_ascii_strtoll`
  applied to a `NULL` pointer is modelled as returning `0` (the behaviour of
  glib's fallback `g_parse_long_long` path, which checks for `NULL`).
* `getpwuid` is an external account lookup; the engine is parameterised over
  it as a function `Int → Option String`.
-/

/-- Outcome of reading one named journal field of a record. -/
inductive FieldVal where
  | present (s : String)
  | absent
  | failure
deriving DecidableEq

/-- One journal record, with the ten fields `print_history` ever reads. -/
structure Record where
  timestamp : FieldVal     -- _SOURCE_REALTIME_TIMESTAMP
  operation : FieldVal     -- OPERATION
  installation : FieldVal  -- INSTALLATION
  ref : FieldVal           -- REF
  remote : FieldVal        -- REMOTE
  commit : FieldVal        -- COMMIT
  result : FieldVal        -- RESULT
  uid : FieldVal           -- _UID
  comm : FieldVal          -- _COMM
  version : FieldVal       -- FLATPAK_VERSION
deriving DecidableEq

/-- Field lookup by journal field name, mirroring `get_field (j, name, error)`;
a name the record does not carry is absent. -/
def get_field (r : Record) (name : String) : FieldVal :=
  if name = "_SOURCE_REALTIME_TIMESTAMP" then r.timestamp
  else if name = "OPERATION" then r.operation
  else if name = "INSTALLATION" then r.installation
  else if name = "REF" then r.ref
  else if name = "REMOTE" then r.remote
  else if name = "COMMIT" then r.commit
  else if name = "RESULT" then r.result
  else if name = "_UID" then r.uid
  else if name = "_COMM" then r.comm
  else if name = "FLATPAK_VERSION" then r.version
  else FieldVal.absent

/-- Value a caller sees when it passes a `NULL` `GError**` to `get_field`:
both an absent field and a read failure come back as `NULL`. -/
def fieldOpt : FieldVal → Option String
  | FieldVal.present s => some s
  | FieldVal.absent => none
  | FieldVal.failure => none

/-- Value a caller sees when it passes a real `GError**` to `get_field`:
a read failure sets the error (modelled as `Except.error`), an absent field
is `NULL` with no error. -/
def fieldExc : FieldVal → Except Unit (Option String)
  | FieldVal.present s => Except.ok (some s)
  | FieldVal.absent => Except.ok none
  | FieldVal.failure => Except.error ()

/-- Byte-wise C string comparison (`strcmp`), on decoded characters. -/
def strcmpChars : List Char → List Char → Int
  | [], [] => 0
  | [], _ :: _ => -1
  | _ :: _, [] => 1
  | c :: cs, d :: ds => if c = d then strcmpChars cs ds else if c.toNat < d.toNat then -1 else 1

/-- Model of glib's `g_strcmp0`: `strcmp` that tolerates `NULL`, a `NULL`
argument comparing less than any string and equal to `NULL`. -/
def g_strcmp0 (a b : Option String) : Int :=
  match a, b with
  | none, none => 0
  | none, some _ => -1
  | some _, none => 1
  | some x, some y => strcmpChars x.data y.data

/-- Character class of C `isspace` in the C locale. -/
def isSpaceCh (c : Char) : Bool :=
  c = ' ' || c = '\t' || c = '\n' || c = '\r' || c = '\x0b' || c = '\x0c'

/-- Digit run consumed by `strtoll` after the optional sign: accumulates the
value and returns the unconsumed tail. -/
def digitsAcc : List Char → Int → Int × List Char
  | [], acc => (acc, [])
  | c :: rest, acc =>
    if c.isDigit then digitsAcc rest (acc * 10 + ((c.toNat : Int) - 48)) else (acc, c :: rest)

/-- Clamp to the signed 64-bit range, as `g_ascii_strtoll` does on overflow. -/
def clampInt64 (n : Int) : Int :=
  max (-(2 ^ 63)) (min (2 ^ 63 - 1) n)

/-- Model of `g_ascii_strtoll (s, &end, 10)`: skip C-locale whitespace, an
optional sign, then a digit run; with no digits the value is `0` and `end`
points back at the start of the input. Returns `(value, end)`. -/
def g_ascii_strtoll (s : List Char) : Int × List Char :=
  let s1 := s.dropWhile isSpaceCh
  let signed : Int × List Char :=
    match s1 with
    | '-' :: r => (-1, r)
    | '+' :: r => (1, r)
    | _ => (1, s1)
  match signed.2 with
  | c :: _ =>
    if c.isDigit then
      let p := digitsAcc signed.2 0
      (clampInt64 (signed.1 * p.1), p.2)
    else (0, s)
  | [] => (0, s)

/-- Truncation of a 64-bit value stored into a C `int`, wrapping modulo 2^32
into the signed 32-bit range. -/
def gint32cast (n : Int) : Int :=
  (n + 2 ^ 31) % 2 ^ 32 - 2 ^ 31

/-- Model of `g_strsplit (s, " ", -1)`: split at every single space; the empty
string is special-cased by glib to an empty vector. -/
def splitOnCharAux (sep : Char) : List Char → List Char → List (List Char)
  | [], cur => [cur.reverse]
  | c :: rest, cur =>
    if c = sep then cur.reverse :: splitOnCharAux sep rest []
    else splitOnCharAux sep rest (c :: cur)

/-- Splitting a character list at every occurrence of `sep`. -/
def splitOnChar (sep : Char) (s : List Char) : List (List Char) :=
  splitOnCharAux sep s []

/-- Model of `g_strsplit (s, " ", -1)` including glib's empty-string case. -/
def g_strsplit_space (s : List Char) : List (List Char) :=
  match s with
  | [] => []
  | _ => splitOnChar ' ' s

/-! ### Civil calendar model of `GDateTime`

An instant is an `Int` count of seconds; the civil decomposition uses the
standard days-from-civil / civil-from-days algorithms on the proleptic
Gregorian calendar. -/

/-- Gregorian leap-year test. -/
def isLeap (y : Int) : Bool :=
  (y % 4 == 0 && y % 100 != 0) || y % 400 == 0

/-- Length in days of month `m` of year `y`. -/
def daysInMonth (y m : Int) : Int :=
  if m = 2 then (if isLeap y then 29 else 28)
  else if m = 4 ∨ m = 6 ∨ m = 9 ∨ m = 11 then 30
  else 31

/-- Day count since 1970-01-01 of a civil date. -/
def daysFromCivil (y m d : Int) : Int :=
  let y1 := if m ≤ 2 then y - 1 else y
  let era := y1.fdiv 400
  let yoe := y1 - era * 400
  let mp := if m > 2 then m - 3 else m + 9
  let doy := (153 * mp + 2).fdiv 5 + d - 1
  let doe := yoe * 365 + yoe.fdiv 4 - yoe.fdiv 100 + doy
  era * 146097 + doe - 719468

/-- Civil date. -/
structure Civil where
  year : Int
  month : Int
  day : Int
deriving DecidableEq

/-- Civil date of a day count since 1970-01-01. -/
def civilFromDays (z0 : Int) : Civil :=
  let z := z0 + 719468
  let era := z.fdiv 146097
  let doe := z - era * 146097
  let yoe := (doe - doe.fdiv 1460 + doe.fdiv 36524 - doe.fdiv 146096).fdiv 365
  let y := yoe + era * 400
  let doy := doe - (365 * yoe + yoe.fdiv 4 - yoe.fdiv 100)
  let mp := (5 * doy + 2).fdiv 153
  let d := doy - (153 * mp + 2).fdiv 5 + 1
  let m := if mp < 10 then mp + 3 else mp - 9
  ⟨if m ≤ 2 then y + 1 else y, m, d⟩

/-- Civil date of an instant. -/
def civilOfSecs (t : Int) : Civil :=
  civilFromDays (t.fdiv 86400)

/-- Seconds into the day of an instant. -/
def timeOfDaySecs (t : Int) : Int :=
  t % 86400

/-- Representability window of `GDateTime`: years 1 through 9999. -/
def yearInRange (t : Int) : Prop :=
  1 ≤ (civilOfSecs t).year ∧ (civilOfSecs t).year ≤ 9999

instance (t : Int) : Decidable (yearInRange t) := by
  unfold yearInRange; infer_instance

/-- Model of `g_date_time_new_local`, with GLib's validity checks: it returns
`NULL` for an out-of-range year, month, day-of-month, or time of day. -/
def g_date_time_new_local (y mo d h mi s : Int) : Option Int :=
  if 1 ≤ y ∧ y ≤ 9999 ∧ 1 ≤ mo ∧ mo ≤ 12 ∧ 1 ≤ d ∧ d ≤ daysInMonth y mo ∧
     0 ≤ h ∧ h ≤ 23 ∧ 0 ≤ mi ∧ mi ≤ 59 ∧ 0 ≤ s ∧ s < 60 then
    some (daysFromCivil y mo d * 86400 + h * 3600 + mi * 60 + s)
  else none

/-- Model of `g_date_time_add_full (t, 0, 0, days, hours, minutes, seconds)`
in a fixed-offset zone — the only shape `parse_time` calls (years and months
both zero).  GLib returns `NULL` when the result leaves the representable
year range. -/
def g_date_time_add_full0 (t ds hs mins ss : Int) : Option Int :=
  let r := t + ds * 86400 + hs * 3600 + mins * 60 + ss
  if yearInRange r then some r else none

/-- Model of `g_date_time_difference (end, begin)` in microseconds.  GLib
guards both arguments with `g_return_val_if_fail (_ != NULL, 0)`, so a `NULL`
argument makes the call evaluate to `0`. -/
def g_date_time_difference (e b : Option Int) : Int :=
  match e, b with
  | some e1, some b1 => (e1 - b1) * 1000000
  | _, _ => 0

/-- Two-digit zero padding for time formatting. -/
def pad2 (n : Int) : String :=
  if n < 10 then "0" ++ toString n else toString n

/-- Model of `g_date_time_format (t, "%X")`: the locale time of day, taken as
`HH:MM:SS`. -/
def format_X (t : Int) : String :=
  let s := timeOfDaySecs t
  pad2 (s.fdiv 3600) ++ ":" ++ pad2 ((s % 3600).fdiv 60) ++ ":" ++ pad2 (s % 60)

/-- Model of `get_time (j, error)`: read `_SOURCE_REALTIME_TIMESTAMP`
(propagating a read failure), parse it with `g_ascii_strtoll`, divide the
microsecond count by 1000000 with C truncating division, and build the
instant.  An absent field gives a `NULL` string, whose `g_ascii_strtoll` is
modelled as `0` (see the header comment). -/
def get_time (r : Record) : Except Unit Int :=
  match fieldExc (get_field r "_SOURCE_REALTIME_TIMESTAMP") with
  | Except.error e => Except.error e
  | Except.ok none => Except.ok ((0 : Int).tdiv 1000000)
  | Except.ok (some v) => Except.ok ((g_ascii_strtoll v.data).1.tdiv 1000000)

/-- Value `print_history` sees when it calls `get_time (j, NULL)`: the error
is discarded, a failure is just a `NULL` time. -/
def get_time_opt (r : Record) : Option Int :=
  (get_time r).toOption

/-! ### Installation directories and scopes -/

/-- Configuration of one target installation directory, as much of
`FlatpakDir` as `dir_get_id` consults. -/
structure FlatpakDir where
  isUser : Bool
  id : Option String
deriving DecidableEq

/-- Model of `dir_get_id`: user directories map to `"user"`; a system
directory keeps its configured id, except that the well-known `"default"` id
becomes `"system"` and a missing id becomes `"unknown"`. -/
def dir_get_id (d : FlatpakDir) : String :=
  if d.isUser then "user"
  else if d.id ≠ some "default" then (d.id.getD "unknown")
  else "system"

/-- Modelled from the spec: `flatpak_decompose_ref` lives in
`flatpak-utils-private` which is not under `src/`; spec section 3
(`DecomposedRef`) describes it as parsing `kind/name/arch/branch` with
`kind ∈ {app, runtime}`, failing (no decomposition) for malformed strings. -/
def flatpak_decompose_ref (ref : String) : Option (String × String × String × String) :=
  match (splitOnChar '/' ref.data).map (fun l => String.mk l) with
  | [k, n, a, b] => if k = "app" ∨ k = "runtime" then some (k, n, a, b) else none
  | _ => none

/-! ### Column projection -/

/-- One output column, as much of the `Column` record as `print_history`
consults (`name` for dispatch, `title` for the table header). -/
structure Column where
  name : String
  title : String
deriving DecidableEq

/-- Projection of one column of one record, mirroring the `if`/`else if`
chain over `columns[k].name` in `print_history`.  `Except.error` is an
aborting field read failure; `Except.ok none` is the fall-through for a name
the chain does not know, which adds no cell. -/
def projectColumn (pw : Int → Option String) (r : Record) (name : String) :
    Except Unit (Option String) :=
  if name = "time" then
    match get_time r with
    | Except.error e => Except.error e
    | Except.ok t => Except.ok (some (format_X t))
  else if name = "change" then
    match fieldExc (get_field r "OPERATION") with
    | Except.error e => Except.error e
    | Except.ok op => Except.ok (some (op.getD ""))
  else if name = "ref" ∨ name = "application" ∨ name = "arch" ∨ name = "branch" then
    match fieldExc (get_field r "REF") with
    | Except.error e => Except.error e
    | Except.ok refv =>
      if name = "ref" then Except.ok (some (refv.getD ""))
      else
        let pref := refv.bind flatpak_decompose_ref
        if name = "application" then
          Except.ok (some (match pref with | some p => p.2.1 | none => ""))
        else if name = "arch" then
          Except.ok (some (match pref with | some p => p.2.2.1 | none => ""))
        else
          Except.ok (some (match pref with | some p => p.2.2.2 | none => ""))
  else if name = "installation" then
    match fieldExc (get_field r "INSTALLATION") with
    | Except.error e => Except.error e
    | Except.ok inst => Except.ok (some (inst.getD ""))
  else if name = "remote" then
    match fieldExc (get_field r "REMOTE") with
    | Except.error e => Except.error e
    | Except.ok rem => Except.ok (some (rem.getD ""))
  else if name = "commit" then
    match fieldExc (get_field r "COMMIT") with
    | Except.error e => Except.error e
    | Except.ok c => Except.ok (some ((c.getD "").take 12))
  else if name = "result" then
    match fieldExc (get_field r "RESULT") with
    | Except.error e => Except.error e
    | Except.ok res =>
      if g_strcmp0 res (some "0") ≠ 0 then Except.ok (some "✓") else Except.ok (some "")
  else if name = "user" then
    match fieldExc (get_field r "_UID") with
    | Except.error e => Except.error e
    | Except.ok idv =>
      let uid := (g_ascii_strtoll (idv.getD "").data).1
      Except.ok (some (match pw uid with | some nm => nm | none => idv.getD ""))
  else if name = "tool" then
    match fieldExc (get_field r "_COMM") with
    | Except.error e => Except.error e
    | Except.ok tool => Except.ok (some (tool.getD ""))
  else if name = "version" then
    match fieldExc (get_field r "FLATPAK_VERSION") with
    | Except.error e => Except.error e
    | Except.ok ver => Except.ok (some (ver.getD ""))
  else Except.ok none

/-- One table row: the cells of the requested columns in request order,
aborting on the first field read failure, exactly as the inner `for (k …)`
loop of `print_history` does. -/
def projectRow (pw : Int → Option String) (r : Record) : List Column → Except Unit (List String)
  | [] => Except.ok []
  | c :: rest =>
    match projectColumn pw r c.name with
    | Except.error e => Except.error e
    | Except.ok none => projectRow pw r rest
    | Except.ok (some cell) => (projectRow pw r rest).map (fun row => cell :: row)

/-! ### Per-record filters -/

/-- Scope filter of `print_history`: with a configured directory list, the
record's `INSTALLATION` field (read with a `NULL` error) is compared with
`g_strcmp0` against each directory's scope id; no match means skip. -/
def recordSkippedByDirs (dirs : Option (List FlatpakDir)) (r : Record) : Bool :=
  match dirs with
  | none => false
  | some ds =>
    let installation := fieldOpt (get_field r "INSTALLATION")
    !(ds.any fun d => g_strcmp0 (some (dir_get_id d)) installation == 0)

/-- Time-window filter of `print_history`: with either bound set, the
record's time is read with a `NULL` error, and the record is skipped when
`g_date_time_difference (since, time) >= 0` or
`g_date_time_difference (time, until) >= 0` — note the C code passes `since`
and `until` to `g_date_time_difference` without checking them for `NULL`. -/
def recordSkippedByWindow (since untl : Option Int) (r : Record) : Bool :=
  if since.isSome || untl.isSome then
    match get_time_opt r with
    | none => false
    | some t =>
      decide (g_date_time_difference since (some t) ≥ 0) ||
      decide (g_date_time_difference (some t) untl ≥ 0)
  else false

/-! ### The history query pipeline -/

/-- State of the journal backend a query runs against. -/
structure Journal where
  openError : Option String
  matchError : Option String
  records : List Record

/-- Observable outcome of `print_history`: the boolean return value, the rows
accumulated in the table printer, whether the table was printed, and the
backend handle bookkeeping (`opens` counts `sd_journal_open` calls,
`acquired` whether a handle was obtained, `closes` counts `sd_journal_close`
calls). -/
structure PHResult where
  ok : Bool
  rows : List (List String)
  printed : Bool
  opens : Nat
  acquired : Bool
  closes : Nat
deriving DecidableEq

/-- The `SD_JOURNAL_FOREACH_BACKWARDS` loop of `print_history`: filter each
record, project the requested columns, and stop with `ok = false` at the
first aborting read failure. -/
def processRecords (pw : Int → Option String) (dirs : Option (List FlatpakDir))
    (since untl : Option Int) (columns : List Column) :
    List Record → List (List String) → Bool × List (List String)
  | [], acc => (true, acc)
  | r :: rest, acc =>
    if recordSkippedByDirs dirs r then processRecords pw dirs since untl columns rest acc
    else if recordSkippedByWindow since untl r then processRecords pw dirs since untl columns rest acc
    else
      match projectRow pw r columns with
      | Except.error _ => (false, acc)
      | Except.ok row => processRecords pw dirs since untl columns rest (acc ++ [row])

/-- Model of `print_history`: the zero-column short-circuit before any
backend call, the open and match steps, the record loop, and the final
print/close — with `sd_journal_close` reached only on the normal-completion
path, as in the C code. -/
def print_history (pw : Int → Option String) (dirs : Option (List FlatpakDir))
    (columns : List Column) (since untl : Option Int) (j : Journal) : PHResult :=
  if columns = [] then ⟨true, [], false, 0, false, 0⟩
  else if j.openError.isSome then ⟨false, [], false, 1, false, 0⟩
  else if j.matchError.isSome then ⟨false, [], false, 1, true, 0⟩
  else
    let p := processRecords pw dirs since untl columns j.records []
    if p.1 then ⟨true, p.2, true, 1, true, 1⟩
    else ⟨false, p.2, false, 1, true, 0⟩

/-! ### The time expression parser (`parse_time`) -/

/-- The fields of `struct tm` that `parse_time` touches. -/
structure Tm where
  tm_year : Int
  tm_mon : Int
  tm_mday : Int
  tm_hour : Int
  tm_min : Int
  tm_sec : Int
deriving DecidableEq

/-- Digit-consumption loop of glibc's `get_number`: after the first digit,
keep consuming while width remains, `val * 10` stays within the bound, and
the next character is a digit. -/
def gnLoop : Nat → Int → Int → List Char → Int × List Char
  | 0, _, val, s => (val, s)
  | Nat.succ w, hi, val, s =>
    if val * 10 ≤ hi then
      match s with
      | c :: rest =>
        if c.isDigit then gnLoop w hi (val * 10 + ((c.toNat : Int) - 48)) rest else (val, s)
      | [] => (val, [])
    else (val, s)

/-- glibc `strptime` numeric field: skip whitespace, require a digit, consume
up to `width` digits bounded by `hi`, and range-check the value. -/
def get_number (lo hi : Int) (width : Nat) (s0 : List Char) : Option (Int × List Char) :=
  let s := s0.dropWhile isSpaceCh
  match s with
  | c :: rest =>
    if c.isDigit then
      let p := gnLoop (width - 1) hi ((c.toNat : Int) - 48) rest
      if lo ≤ p.1 ∧ p.1 ≤ hi then some p else none
    else none
  | [] => none

/-- Model of glibc `strptime` restricted to the directives the four formats
of `parse_time` use (`%H %M %S %Y %m %d`, literal characters, and format
whitespace matching any run of input whitespace).  Returns the updated
`struct tm` and the unconsumed input on a match. -/
def strptimeGo : List Char → List Char → Tm → Option (Tm × List Char)
  | [], s, tm => some (tm, s)
  | '%' :: d :: fmtRest, s, tm =>
    match d with
    | 'H' => (get_number 0 23 2 s).bind fun p => strptimeGo fmtRest p.2 { tm with tm_hour := p.1 }
    | 'M' => (get_number 0 59 2 s).bind fun p => strptimeGo fmtRest p.2 { tm with tm_min := p.1 }
    | 'S' => (get_number 0 61 2 s).bind fun p => strptimeGo fmtRest p.2 { tm with tm_sec := p.1 }
    | 'Y' =>
      (get_number 0 9999 4 s).bind fun p =>
        strptimeGo fmtRest p.2 { tm with tm_year := p.1 - 1900 }
    | 'm' =>
      (get_number 1 12 2 s).bind fun p => strptimeGo fmtRest p.2 { tm with tm_mon := p.1 - 1 }
    | 'd' => (get_number 1 31 2 s).bind fun p => strptimeGo fmtRest p.2 { tm with tm_mday := p.1 }
    | _ => none
  | c :: fmtRest, s, tm =>
    if isSpaceCh c then strptimeGo fmtRest (s.dropWhile isSpaceCh) tm
    else
      match s with
      | c2 :: s2 => if c2 = c then strptimeGo fmtRest s2 tm else none
      | [] => none

/-- The four absolute formats of `parse_time`, in their priority order. -/
def fmtsList : List (List Char) :=
  [['%', 'H', ':', '%', 'M'],
   ['%', 'H', ':', '%', 'M', ':', '%', 'S'],
   ['%', 'Y', '-', '%', 'm', '-', '%', 'd'],
   ['%', 'Y', '-', '%', 'm', '-', '%', 'd', ' ', '%', 'H', ':', '%', 'M', ':', '%', 'S']]

/-- The absolute-format pass of `parse_time`.  For each format the
`struct tm` is pre-seeded from `now` with `GDateTime` conventions (the full
year and the 1-based month) and zero time of day; the first format that
consumes the whole input returns `g_date_time_new_local (tm_year + 1900,
tm_mon + 1, …)` directly — even when that constructor fails, in which case
`parse_time` reports failure without trying the relative pass.  `none` means
no format matched. -/
def tryFormats (now : Int) (s : List Char) : List (List Char) → Option (Option Int)
  | [] => none
  | f :: rest =>
    let c := civilOfSecs now
    let tm0 : Tm := ⟨c.year, c.month, c.day, 0, 0, 0⟩
    match strptimeGo f s tm0 with
    | some (tm, []) =>
      some (g_date_time_new_local (tm.tm_year + 1900) (tm.tm_mon + 1) tm.tm_mday
              tm.tm_hour tm.tm_min tm.tm_sec)
    | _ => tryFormats now s rest

/-- Day/hour/minute/second counters of the relative pass. -/
structure Dur where
  days : Int
  hours : Int
  minutes : Int
  seconds : Int
deriving DecidableEq

/-- Numeric value `g_ascii_strtoll` extracts from a token. -/
def tokVal (tok : List Char) : Int :=
  (g_ascii_strtoll tok).1

/-- Unconsumed suffix `g_ascii_strtoll` leaves of a token. -/
def tokEnd (tok : List Char) : List Char :=
  (g_ascii_strtoll tok).2

/-- Token whose suffix is a day unit (`d`, `day`, `days`). -/
def isDayTok (tok : List Char) : Prop :=
  tokEnd tok = ['d'] ∨ tokEnd tok = ['d', 'a', 'y'] ∨ tokEnd tok = ['d', 'a', 'y', 's']

/-- Token whose suffix is an hour unit (`h`, `hour`, `hours`). -/
def isHourTok (tok : List Char) : Prop :=
  tokEnd tok = ['h'] ∨ tokEnd tok = ['h', 'o', 'u', 'r'] ∨
    tokEnd tok = ['h', 'o', 'u', 'r', 's']

/-- Token whose suffix is a minute unit (`m`, `minute`, `minutes`). -/
def isMinuteTok (tok : List Char) : Prop :=
  tokEnd tok = ['m'] ∨ tokEnd tok = ['m', 'i', 'n', 'u', 't', 'e'] ∨
    tokEnd tok = ['m', 'i', 'n', 'u', 't', 'e', 's']

/-- Token whose suffix is a second unit (`s`, `second`, `seconds`). -/
def isSecondTok (tok : List Char) : Prop :=
  tokEnd tok = ['s'] ∨ tokEnd tok = ['s', 'e', 'c', 'o', 'n', 'd'] ∨
    tokEnd tok = ['s', 'e', 'c', 'o', 'n', 'd', 's']

instance (tok : List Char) : Decidable (isDayTok tok) := by unfold isDayTok; infer_instance
instance (tok : List Char) : Decidable (isHourTok tok) := by unfold isHourTok; infer_instance
instance (tok : List Char) : Decidable (isMinuteTok tok) := by unfold isMinuteTok; infer_instance
instance (tok : List Char) : Decidable (isSecondTok tok) := by unfold isSecondTok; infer_instance

/-- Token carrying any known unit suffix. -/
def isUnitTok (tok : List Char) : Prop :=
  isDayTok tok ∨ isHourTok tok ∨ isMinuteTok tok ∨ isSecondTok tok

instance (tok : List Char) : Decidable (isUnitTok tok) := by unfold isUnitTok; infer_instance

/-- Token loop of the relative pass of `parse_time`: each token is fed to
`g_ascii_strtoll`, the unconsumed suffix selects the unit counter that the
(`int`-cast) value overwrites, and a token with an unknown suffix fails the
whole parse. -/
def relLoop : Dur → List (List Char) → Option Dur
  | acc, [] => some acc
  | acc, tok :: rest =>
    let n := gint32cast (tokVal tok)
    if isDayTok tok then relLoop { acc with days := n } rest
    else if isHourTok tok then relLoop { acc with hours := n } rest
    else if isMinuteTok tok then relLoop { acc with minutes := n } rest
    else if isSecondTok tok then relLoop { acc with seconds := n } rest
    else none

/-- Relative-duration pass of `parse_time`: split on single spaces, run the
token loop, and subtract the counters from `now` with
`g_date_time_add_full`. -/
def parse_time_rel (now : Int) (s : String) : Option Int :=
  let parts := g_strsplit_space s.data
  match relLoop ⟨0, 0, 0, 0⟩ parts with
  | none => none
  | some d => g_date_time_add_full0 now (-d.days) (-d.hours) (-d.minutes) (-d.seconds)

/-- Model of `parse_time`: the absolute-format pass in priority order, then
the relative-duration pass.  `now` stands for the
`g_date_time_new_now_local ()` reference instant. -/
def parse_time (now : Int) (s : String) : Option Int :=
  match tryFormats now s.data fmtsList with
  | some res => res
  | none => parse_time_rel now s

/-! ### Helper lemmas -/

/-- The `strcmp` model returns zero exactly on equal strings. -/
theorem strcmpChars_eq_zero_iff : ∀ a b : List Char, strcmpChars a b = 0 ↔ a = b := by
  intro a
  induction a with
  | nil => intro b; cases b <;> simp [strcmpChars]
  | cons c cs ih =>
    intro b
    cases b with
    | nil => simp [strcmpChars]
    | cons d ds =>
      simp only [strcmpChars, List.cons.injEq]
      split_ifs with h1 h2 <;> simp [h1, ih]

/-- The `g_strcmp0` model returns zero exactly on equal (possibly `NULL`)
strings. -/
theorem g_strcmp0_eq_zero_iff (a b : Option String) : g_strcmp0 a b = 0 ↔ a = b := by
  cases a with
  | none => cases b <;> simp [g_strcmp0]
  | some x =>
    cases b with
    | none => simp [g_strcmp0]
    | some y =>
      simp only [g_strcmp0, strcmpChars_eq_zero_iff, Option.some.injEq]
      exact ⟨fun h => String.ext h, fun h => by rw [h]⟩

/-- Prepending to a list shifts the default of `getLast?.getD`. -/
theorem getLastD_cons (l : List Int) (n x : Int) :
    ((n :: l).getLast?).getD x = (l.getLast?).getD n := by
  cases l <;> simp [List.getLast?]

/-- A value fitting in a signed 32-bit integer is unchanged by the `int`
truncation. -/
theorem gint32cast_eq_self {n : Int} (h : n.natAbs < 2 ^ 31) : gint32cast n = n := by
  unfold gint32cast
  rw [Int.emod_eq_of_lt (by omega) (by omega)]
  omega

/-! ### Concrete fixtures -/

/-- Account lookup double: no account database entry for any uid. -/
def pw0 : Int → Option String := fun _ => none

/-- Record with every journal field absent. -/
def emptyRec : Record :=
  ⟨FieldVal.absent, FieldVal.absent, FieldVal.absent, FieldVal.absent, FieldVal.absent,
   FieldVal.absent, FieldVal.absent, FieldVal.absent, FieldVal.absent, FieldVal.absent⟩

/-- The `change` column. -/
def colChange : Column := ⟨"change", "Change"⟩

/-- The `installation` column. -/
def colInstallation : Column := ⟨"installation", "Installation"⟩

/-- The `remote` column. -/
def colRemote : Column := ⟨"remote", "Remote"⟩

/-- Reference instant 2024-01-10 12:00:00 local. -/
def now0 : Int := 1704888000

/-! ### Claim C1 — the `result` column -/

/-- Claim C1 (corrected), amended form: the `result` projection renders `"✓"`
whenever the `RESULT` field's value differs from `"0"` under the `NULL`-safe
comparison `g_strcmp0` — so an absent field also renders `"✓"`, since `NULL`
differs from `"0"`; only a present value equal to `"0"` renders the empty
string, and a read failure aborts. -/
theorem result_column_checkmark (pw : Int → Option String) (r : Record) :
    projectColumn pw r "result" =
      match get_field r "RESULT" with
      | FieldVal.failure => Except.error ()
      | FieldVal.absent => Except.ok (some "✓")
      | FieldVal.present s => Except.ok (some (if s = "0" then "" else "✓")) := by
  have hg : get_field r "RESULT" = r.result := rfl
  rw [hg]
  cases hr : r.result with
  | failure => simp [projectColumn, get_field, fieldExc, hr]
  | absent => simp [projectColumn, get_field, fieldExc, hr, g_strcmp0]
  | present s =>
    by_cases hs : s = "0"
    · simp [projectColumn, get_field, fieldExc, hr, hs, g_strcmp0_eq_zero_iff]
    · have : g_strcmp0 (some s) (some "0") ≠ 0 := by
        rw [Ne, g_strcmp0_eq_zero_iff]
        simp [hs]
      simp [projectColumn, get_field, fieldExc, hr, hs, this]

/-- Claim C1 counterexample: on a record whose `RESULT` field is absent the
projection produces `"✓"`, not the empty string the claim requires. -/
theorem result_column_absent_counterexample :
    projectColumn pw0 emptyRec "result" = Except.ok (some "✓") ∧
    projectColumn pw0 emptyRec "result" ≠ Except.ok (some "") := by
  have h1 : projectColumn pw0 emptyRec "result" = Except.ok (some "✓") := rfl
  refine ⟨h1, ?_⟩
  rw [h1]
  simp

/-! ### Claim C7 — the zero-column short-circuit -/

/-- Claim C7 (confirmed): with an empty resolved column list the query
returns success immediately, produces no rows, and performs zero backend
open calls (and hence never iterates the log). -/
theorem empty_columns_short_circuit (pw : Int → Option String)
    (dirs : Option (List FlatpakDir)) (since untl : Option Int) (j : Journal) :
    print_history pw dirs [] since untl j = ⟨true, [], false, 0, false, 0⟩ := by
  simp [print_history]

/-! ### Claim C9 — release of the journal handle -/

/-- Claim C9 (corrected), amended form: `sd_journal_close` is reached exactly
on the successful-completion path; the zero-column path never acquires the
handle, and every error return after acquisition (match failure, projection
read failure) leaks it. -/
theorem journal_close_only_on_success (pw : Int → Option String)
    (dirs : Option (List FlatpakDir)) (columns : List Column)
    (since untl : Option Int) (j : Journal) :
    (print_history pw dirs columns since untl j).closes =
      cond ((print_history pw dirs columns since untl j).ok &&
            (print_history pw dirs columns since untl j).acquired) 1 0 := by
  unfold print_history
  split
  · rfl
  · split
    · rfl
    · split
      · rfl
      · dsimp only
        split <;> rfl

/-- Claim C9 counterexample: when `sd_journal_add_match` fails after a
successful open, `print_history` returns with the handle acquired and zero
close calls — the handle is not released on that exit path. -/
theorem journal_close_leak_counterexample :
    (print_history pw0 none [colChange] none none ⟨none, some "boom", []⟩).acquired = true ∧
    (print_history pw0 none [colChange] none none ⟨none, some "boom", []⟩).closes = 0 ∧
    (print_history pw0 none [colChange] none none ⟨none, some "boom", []⟩).ok = false :=
  ⟨rfl, rfl, rfl⟩

/-! ### Claim C2 — the time window bounds -/

/-- Record of a deploy at 2024-01-09 00:00:00 local (timestamp in journal
microseconds). -/
def recDeploy : Record :=
  { emptyRec with timestamp := FieldVal.present "1704844800000000",
                  operation := FieldVal.present "deploy" }

/-- Journal holding just the 2024-01-09 deploy record. -/
def jDeploy : Journal := ⟨none, none, [recDeploy]⟩

/-- Claim C2 (code bug): the record at `t` = 2024-01-09 00:00:00 with only
`until` = 2024-01-10 12:00:00 set satisfies `t < until`, so the claim
includes it, yet the query yields no row — the unset `since` reaches
`g_date_time_difference` unchecked, whose `NULL` guard yields `0`, and
`0 >= 0` skips every record; only `since` set behaves symmetrically; with
both bounds set around `t` the record is included as the claim says. -/
theorem window_single_bound_bug :
    (print_history pw0 none [colChange] none (some 1704888000) jDeploy).rows = [] ∧
    (print_history pw0 none [colChange] (some 1704758400) none jDeploy).rows = [] ∧
    (print_history pw0 none [colChange] (some 1704758400) (some 1704888000) jDeploy).rows =
      [["deploy"]] :=
  ⟨rfl, rfl, rfl⟩

/-! ### Claim C3 — timestamp read failure during window filtering -/

/-- Record whose timestamp read fails with a backend error but whose
`OPERATION` field is readable. -/
def recBadStamp : Record :=
  { emptyRec with timestamp := FieldVal.failure,
                  operation := FieldVal.present "update" }

/-- Claim C3 counterexample: with `since` set and a record whose timestamp
read fails, the query does not abort — it succeeds and the record is
included (the claim requires a hard `IoFailure` abort instead). -/
theorem window_read_failure_included_counterexample :
    print_history pw0 none [colChange] (some 1704888000) none ⟨none, none, [recBadStamp]⟩ =
      ⟨true, [["update"]], true, 1, true, 1⟩ :=
  rfl

/-- Claim C3 (corrected), amended form: during window filtering the
timestamp is read with a `NULL` error out-parameter, so a read failure is
discarded rather than aborting; the failed time is `NULL`, both skip tests
are short-circuited by the `time &&` guards, and the record is never
excluded by the window filter. -/
theorem window_read_failure_ignored (since untl : Option Int) (r : Record)
    (h : r.timestamp = FieldVal.failure) :
    recordSkippedByWindow since untl r = false := by
  have hf : get_time_opt r = none := by
    simp [get_time_opt, get_time, get_field, fieldExc, h, Except.toOption]
  simp [recordSkippedByWindow, hf]

/-- Claim C3 witness: the amended statement at the concrete failing record
with `since` set. -/
theorem window_read_failure_ignored_witness :
    recordSkippedByWindow (some 1704888000) none recBadStamp = false :=
  window_read_failure_ignored (some 1704888000) none recBadStamp rfl

/-! ### Claim C5 — the installation scope filter -/

/-- A user-scoped installation directory. -/
def userDir : FlatpakDir := ⟨true, none⟩

/-- Record attributed to the system installation carrying remote `r1`. -/
def recSys1 : Record :=
  { emptyRec with installation := FieldVal.present "system",
                  remote := FieldVal.present "r1" }

/-- Record attributed to the user installation carrying remote `r2`. -/
def recUser : Record :=
  { emptyRec with installation := FieldVal.present "user",
                  remote := FieldVal.present "r2" }

/-- Record attributed to the system installation carrying remote `r3`. -/
def recSys2 : Record :=
  { emptyRec with installation := FieldVal.present "system",
                  remote := FieldVal.present "r3" }

/-- Claim C5 (confirmed): with a scope filter active a record passes the
filter exactly when its `INSTALLATION` field (as seen through a `NULL`
error) equals some configured directory's scope id; in particular an absent
installation field is always skipped, and the three-record
`{system, user, system}` log filtered to `{user}` yields exactly the middle
record's row. -/
theorem scope_filter_matches_id :
    (∀ (ds : List FlatpakDir) (r : Record),
        recordSkippedByDirs (some ds) r = false ↔
          ∃ d ∈ ds, fieldOpt (get_field r "INSTALLATION") = some (dir_get_id d)) ∧
    (∀ (ds : List FlatpakDir) (r : Record),
        get_field r "INSTALLATION" = FieldVal.absent →
          recordSkippedByDirs (some ds) r = true) ∧
    (print_history pw0 (some [userDir]) [colInstallation, colRemote] none none
        ⟨none, none, [recSys1, recUser, recSys2]⟩).rows = [["user", "r2"]] := by
  refine ⟨?_, ?_, rfl⟩
  · intro ds r
    simp only [recordSkippedByDirs, Bool.not_eq_false', List.any_eq_true, beq_iff_eq,
      g_strcmp0_eq_zero_iff]
    constructor
    · rintro ⟨d, hd, he⟩
      exact ⟨d, hd, he.symm⟩
    · rintro ⟨d, hd, he⟩
      exact ⟨d, hd, he.symm⟩
  · intro ds r h
    simp [recordSkippedByDirs, h, fieldOpt, g_strcmp0]

/-- Claim C5 witness: the absent-installation branch of the theorem applied
to the all-absent record and the `{user}` filter. -/
theorem scope_filter_matches_id_witness :
    recordSkippedByDirs (some [userDir]) emptyRec = true :=
  scope_filter_matches_id.2.1 [userDir] emptyRec rfl

/-! ### Claim C6 — the relative-duration parse -/

/-- Values of the day-suffixed tokens, in token order. -/
def dayVals (toks : List (List Char)) : List Int :=
  toks.filterMap fun t => if isDayTok t then some (tokVal t) else none

/-- Values of the hour-suffixed tokens, in token order. -/
def hourVals (toks : List (List Char)) : List Int :=
  toks.filterMap fun t => if isHourTok t then some (tokVal t) else none

/-- Values of the minute-suffixed tokens, in token order. -/
def minuteVals (toks : List (List Char)) : List Int :=
  toks.filterMap fun t => if isMinuteTok t then some (tokVal t) else none

/-- Values of the second-suffixed tokens, in token order. -/
def secondVals (toks : List (List Char)) : List Int :=
  toks.filterMap fun t => if isSecondTok t then some (tokVal t) else none

/-- Last element of a list, or a default: the value a category ends up with
when the last occurrence wins. -/
def lastDefault (l : List Int) (dflt : Int) : Int :=
  (l.getLast?).getD dflt

/-- A day suffix is not an hour suffix. -/
theorem isDayTok_not_hour {tok : List Char} (h : isDayTok tok) : ¬ isHourTok tok := by
  unfold isDayTok at h
  unfold isHourTok
  rcases h with h | h | h <;> rw [h] <;> decide

/-- A day suffix is not a minute suffix. -/
theorem isDayTok_not_minute {tok : List Char} (h : isDayTok tok) : ¬ isMinuteTok tok := by
  unfold isDayTok at h
  unfold isMinuteTok
  rcases h with h | h | h <;> rw [h] <;> decide

/-- A day suffix is not a second suffix. -/
theorem isDayTok_not_second {tok : List Char} (h : isDayTok tok) : ¬ isSecondTok tok := by
  unfold isDayTok at h
  unfold isSecondTok
  rcases h with h | h | h <;> rw [h] <;> decide

/-- An hour suffix is not a minute suffix. -/
theorem isHourTok_not_minute {tok : List Char} (h : isHourTok tok) : ¬ isMinuteTok tok := by
  unfold isHourTok at h
  unfold isMinuteTok
  rcases h with h | h | h <;> rw [h] <;> decide

/-- An hour suffix is not a second suffix. -/
theorem isHourTok_not_second {tok : List Char} (h : isHourTok tok) : ¬ isSecondTok tok := by
  unfold isHourTok at h
  unfold isSecondTok
  rcases h with h | h | h <;> rw [h] <;> decide

/-- A minute suffix is not a second suffix. -/
theorem isMinuteTok_not_second {tok : List Char} (h : isMinuteTok tok) : ¬ isSecondTok tok := by
  unfold isMinuteTok at h
  unfold isSecondTok
  rcases h with h | h | h <;> rw [h] <;> decide

/-- The token loop computes, for each unit category, the value of the last
token of that category (or the starting counter), provided every token
carries a known unit suffix and every value fits in a C `int`. -/
theorem relLoop_eq_lastWins :
    ∀ (toks : List (List Char)) (acc : Dur),
      (∀ tok ∈ toks, isUnitTok tok) →
      (∀ tok ∈ toks, (tokVal tok).natAbs < 2 ^ 31) →
      relLoop acc toks =
        some ⟨lastDefault (dayVals toks) acc.days, lastDefault (hourVals toks) acc.hours,
              lastDefault (minuteVals toks) acc.minutes,
              lastDefault (secondVals toks) acc.seconds⟩ := by
  intro toks
  induction toks with
  | nil =>
    intro acc _ _
    simp [relLoop, dayVals, hourVals, minuteVals, secondVals, lastDefault]
  | cons tok rest ih =>
    intro acc h1 h2
    have hu : isUnitTok tok := h1 tok (by simp)
    have hv : gint32cast (tokVal tok) = tokVal tok := gint32cast_eq_self (h2 tok (by simp))
    have h1r : ∀ t ∈ rest, isUnitTok t := fun t ht => h1 t (by simp [ht])
    have h2r : ∀ t ∈ rest, (tokVal t).natAbs < 2 ^ 31 := fun t ht => h2 t (by simp [ht])
    by_cases hd : isDayTok tok
    · have hh := isDayTok_not_hour hd
      have hm := isDayTok_not_minute hd
      have hs := isDayTok_not_second hd
      rw [show relLoop acc (tok :: rest) = relLoop { acc with days := gint32cast (tokVal tok) } rest
            from by simp [relLoop, hd]]
      rw [ih _ h1r h2r, hv]
      simp [dayVals, hourVals, minuteVals, secondVals, hd, hh, hm, hs, lastDefault, getLastD_cons]
    · by_cases hh : isHourTok tok
      · have hm := isHourTok_not_minute hh
        have hs := isHourTok_not_second hh
        rw [show relLoop acc (tok :: rest) =
              relLoop { acc with hours := gint32cast (tokVal tok) } rest
              from by simp [relLoop, hd, hh]]
        rw [ih _ h1r h2r, hv]
        simp [dayVals, hourVals, minuteVals, secondVals, hd, hh, hm, hs, lastDefault, getLastD_cons]
      · by_cases hm : isMinuteTok tok
        · have hs := isMinuteTok_not_second hm
          rw [show relLoop acc (tok :: rest) =
                relLoop { acc with minutes := gint32cast (tokVal tok) } rest
                from by simp [relLoop, hd, hh, hm]]
          rw [ih _ h1r h2r, hv]
          simp [dayVals, hourVals, minuteVals, secondVals, hd, hh, hm, hs, lastDefault,
            getLastD_cons]
        · have hs : isSecondTok tok := by
            rcases hu with h | h | h | h
            · exact absurd h hd
            · exact absurd h hh
            · exact absurd h hm
            · exact h
          rw [show relLoop acc (tok :: rest) =
                relLoop { acc with seconds := gint32cast (tokVal tok) } rest
                from by simp [relLoop, hd, hh, hm, hs]]
          rw [ih _ h1r h2r, hv]
          simp [dayVals, hourVals, minuteVals, secondVals, hd, hh, hm, hs, lastDefault,
            getLastD_cons]

/-- Claim C6 (corrected), amended form: for a relative-duration input whose
space-separated tokens each carry a known unit suffix and whose counts each
fit in a signed 32-bit `int`, the relative pass yields the reference instant
minus the sum of the day, hour, minute and second counts, the last
occurrence of a repeated unit category winning — provided the resulting
instant stays in the representable year range, else the parse fails.  The
parser requires the count and the unit to form one token: `"2days 3hours"`
parses, while the claim's spaced `"2 days 3 hours"` is rejected (see the
counterexample). -/
theorem relative_duration_lastwins (now : Int) (s : String)
    (h1 : ∀ tok ∈ g_strsplit_space s.data, isUnitTok tok)
    (h2 : ∀ tok ∈ g_strsplit_space s.data, (tokVal tok).natAbs < 2 ^ 31) :
    parse_time_rel now s =
      (let total := lastDefault (dayVals (g_strsplit_space s.data)) 0 * 86400 +
                    lastDefault (hourVals (g_strsplit_space s.data)) 0 * 3600 +
                    lastDefault (minuteVals (g_strsplit_space s.data)) 0 * 60 +
                    lastDefault (secondVals (g_strsplit_space s.data)) 0
       if yearInRange (now - total) then some (now - total) else none) := by
  unfold parse_time_rel
  dsimp only
  rw [relLoop_eq_lastWins _ _ h1 h2]
  show g_date_time_add_full0 now _ _ _ _ = _
  unfold g_date_time_add_full0
  have harith :
      now + -lastDefault (dayVals (g_strsplit_space s.data)) 0 * 86400 +
          -lastDefault (hourVals (g_strsplit_space s.data)) 0 * 3600 +
          -lastDefault (minuteVals (g_strsplit_space s.data)) 0 * 60 +
          -lastDefault (secondVals (g_strsplit_space s.data)) 0 =
        now - (lastDefault (dayVals (g_strsplit_space s.data)) 0 * 86400 +
               lastDefault (hourVals (g_strsplit_space s.data)) 0 * 3600 +
               lastDefault (minuteVals (g_strsplit_space s.data)) 0 * 60 +
               lastDefault (secondVals (g_strsplit_space s.data)) 0) := by ring
  rw [harith]

/-- Claim C6 counterexample: the claim's own example input
`"2 days 3 hours"` (spaces between count and unit) is a parse failure, not
2024-01-08 09:00:00 — the tokens `"2"` and `"3"` carry no unit suffix. -/
theorem relative_duration_spaced_counterexample :
    parse_time now0 "2 days 3 hours" = none :=
  rfl

/-- Claim C6 witness: the amended statement applied to `"2days 3hours"`
against reference 2024-01-10 12:00:00 yields 2024-01-08 09:00:00
(seconds 1704704400). -/
theorem relative_duration_lastwins_witness :
    parse_time_rel now0 "2days 3hours" = some 1704704400 ∧
    civilOfSecs 1704704400 = ⟨2024, 1, 8⟩ ∧ timeOfDaySecs 1704704400 = 32400 := by
  refine ⟨?_, rfl, rfl⟩
  rw [relative_duration_lastwins now0 "2days 3hours" (by decide) (by decide)]
  rfl

/-! ### Claim C4 — anchoring of absolute time-only input -/

/-- Claim C4 (code bug): against the reference instant 2024-01-10 12:00:00
the time-only input `"14:30"` parses to calendar date 3924-02-10 — not the
reference's 2024-01-10 — because `parse_time` seeds `struct tm` with
`GDateTime` conventions (full year, 1-based month) yet converts back with
`tm_year + 1900` and `tm_mon + 1`; date-only input is unaffected since
`strptime` overwrites those fields in `struct tm` conventions. -/
theorem absolute_time_anchor_bug :
    (parse_time now0 "14:30").map civilOfSecs = some ⟨3924, 2, 10⟩ ∧
    (parse_time now0 "14:30").map timeOfDaySecs = some 52200 ∧
    (parse_time now0 "14:30").map civilOfSecs ≠ some ⟨2024, 1, 10⟩ ∧
    (parse_time now0 "2024-01-05").map civilOfSecs = some ⟨2024, 1, 5⟩ ∧
    (parse_time now0 "2024-01-05").map timeOfDaySecs = some 0 := by
  have h1 : (parse_time now0 "14:30").map civilOfSecs = some ⟨3924, 2, 10⟩ := rfl
  refine ⟨h1, rfl, ?_, rfl, rfl⟩
  rw [h1]
  simp

/-! ### Claim C8 — ref decomposition columns -/

/-- Record whose `REF` field is the well-formed example ref. -/
def refRec : Record :=
  { emptyRec with ref := FieldVal.present "app/org.foo.Bar/x86_64/stable" }

/-- Record whose `REF` field lacks the kind component. -/
def badRefRec : Record :=
  { emptyRec with ref := FieldVal.present "org.foo.Bar/x86_64/stable" }

/-- Claim C8 (confirmed): the example ref decomposes into its name,
architecture and branch components and the three projections yield them; on
any ref string whose decomposition fails, all three projections yield empty
strings without aborting. -/
theorem ref_decomposition_columns :
    flatpak_decompose_ref "app/org.foo.Bar/x86_64/stable" =
      some ("app", "org.foo.Bar", "x86_64", "stable") ∧
    projectColumn pw0 refRec "application" = Except.ok (some "org.foo.Bar") ∧
    projectColumn pw0 refRec "arch" = Except.ok (some "x86_64") ∧
    projectColumn pw0 refRec "branch" = Except.ok (some "stable") ∧
    (∀ (pw : Int → Option String) (r : Record) (s : String),
        get_field r "REF" = FieldVal.present s → flatpak_decompose_ref s = none →
          projectColumn pw r "application" = Except.ok (some "") ∧
          projectColumn pw r "arch" = Except.ok (some "") ∧
          projectColumn pw r "branch" = Except.ok (some "")) := by
  refine ⟨rfl, rfl, rfl, rfl, ?_⟩
  intro pw r s href hnone
  refine ⟨?_, ?_, ?_⟩ <;> simp [projectColumn, href, hnone, fieldExc]

/-- Claim C8 witness: the failure branch of the theorem at the concrete
malformed ref (three components, no kind). -/
theorem ref_decomposition_columns_witness :
    projectColumn pw0 badRefRec "application" = Except.ok (some "") :=
  (ref_decomposition_columns.2.2.2.2 pw0 badRefRec "org.foo.Bar/x86_64/stable" rfl rfl).1

/-! ### Claim C10 — edge tokens of the relative pass -/

/-- Adding zero days, hours, minutes and seconds is the identity on a
representable instant. -/
theorem add_full0_zero (now : Int) (h : yearInRange now) :
    g_date_time_add_full0 now (-0) (-0) (-0) (-0) = some now := by
  have hr : now + -0 * 86400 + -0 * 3600 + -0 * 60 + -0 = now := by ring
  unfold g_date_time_add_full0
  dsimp only
  rw [hr, if_pos h]

/-- The twelve recognised unit suffixes. -/
def unitSuffixes : List String :=
  ["d", "day", "days", "h", "hour", "hours", "m", "minute", "minutes", "s", "second", "seconds"]

/-- Claim C10 (confirmed): a bare unit suffix with no leading digits is
accepted by the relative pass and contributes zero of its unit
(`g_ascii_strtoll` finds no digits, yields `0`, and leaves the whole token
as the suffix), and the empty input splits into zero tokens and parses to
exactly the reference instant; neither input is a parse failure.  Both are
stated through the full `parse_time`, since no absolute format matches
either input. -/
theorem relative_edge_tokens :
    (∀ now : Int, yearInRange now → parse_time now "" = some now) ∧
    (∀ (now : Int) (tok : String), tok ∈ unitSuffixes → yearInRange now →
        parse_time now tok = some now) := by
  constructor
  · intro now h
    exact add_full0_zero now h
  · intro now tok htok h
    simp only [unitSuffixes, List.mem_cons, List.not_mem_nil, or_false] at htok
    rcases htok with rfl | rfl | rfl | rfl | rfl | rfl | rfl | rfl | rfl | rfl | rfl | rfl <;>
      exact add_full0_zero now h

/-- Claim C10 witness: the empty input and the bare `"hours"` token at the
concrete reference instant. -/
theorem relative_edge_tokens_witness :
    parse_time now0 "" = some now0 ∧ parse_time now0 "hours" = some now0 :=
  ⟨relative_edge_tokens.1 now0 (by decide),
   relative_edge_tokens.2 now0 "hours" (by decide) (by decide)⟩
